import Mathlib

/-!
# A shallow embedding of the `py3_cElementTree.c` core

This file embeds, in Lean, the data model and the operations of the
C ElementTree core (`src/xElementTree/src/py3_cElementTree.c`):

* the `Element` node type with its tagged text/tail pointers (the
  `JOIN_GET`/`JOIN_SET`/`JOIN_OBJ` machinery), its lazily allocated
  `extra` section (attribute dictionary plus child array), and the
  attribute/sequence protocol operations;
* the `TreeBuilder` state machine (`treebuilder_handle_start`,
  `treebuilder_handle_data`, `treebuilder_handle_end`) over an explicit
  heap of elements addressed by index (the C code mutates heap objects
  through pointers; here every element lives at a `Nat` address in a
  `heap` list and mutation is functional update);
* the slice normalization (`PySlice_GetIndicesEx`) and the slice
  assignment path of `element_ass_subscr`, over a C-array model of the
  child buffer (`Int`-indexed function plus a length);
* the expat `default` handler (`expat_default_handler`) together with
  `expat_set_error`, modelling the pending Python error slot
  (`PyErr_Occurred`/`PyErr_SetObject`) explicitly.

Reference counting, garbage collection and allocation failures are not
modelled; `localName`/`ns` (the namespace split of the tag, untouched by
every operation modelled here) are omitted from the element record.
-/

set_option autoImplicit false

namespace XETree

/-- Decoded Python unicode strings are modelled as lists of characters. -/
abbrev Str := List Char

/-- The Python objects that can occupy a `text`/`tail` slot or a tag slot
in this development: `Py_None`, a unicode string, or a list of strings
(the tree builder's pending fragment lists). -/
inductive PyVal where
  | none
  | str (s : Str)
  | strList (l : List Str)
deriving DecidableEq

/-- `PyList_CheckExact` on the values of this model. -/
def PyVal.isList : PyVal → Bool
  | .strList _ => true
  | _ => false

/-- `list_join`: join list elements with the empty separator, i.e.
`"".join(list)` via `PyUnicode_Join`. -/
def list_join (l : List Str) : Str :=
  l.foldl (· ++ ·) []

/-- A tagged text/tail pointer.  The low pointer bit (`JOIN_GET`) marks
values stored by the tree builder as fragment lists, which must be joined
on the first read; `obj` is the `JOIN_OBJ` payload. -/
structure TaggedText where
  obj : PyVal
  join : Bool
deriving DecidableEq

/-- The initial `Py_None` text/tail slot (no join bit). -/
def TaggedText.pyNone : TaggedText := ⟨PyVal.none, false⟩

/-- `PyDict_GetItem` on an insertion-ordered string dictionary. -/
def dictGet (d : List (Str × Str)) (k : Str) : Option Str :=
  (d.find? (fun p => p.1 == k)).map (·.2)

/-- `PyDict_SetItem`: replace the value of an existing key in place,
otherwise append the new pair (insertion order preserved). -/
def dictSet (d : List (Str × Str)) (k v : Str) : List (Str × Str) :=
  if d.any (fun p => p.1 == k) then
    d.map (fun p => if p.1 == k then (k, v) else p)
  else d ++ [(k, v)]

/-- The `ElementObjectExtra` section: the attribute dictionary (`none`
models `Py_None`, i.e. "no attributes yet") and the child array (child
elements are heap addresses).  The `allocated`/static-buffer capacity
bookkeeping is modelled separately by `element_resize_alloc`. -/
structure ExtraRec where
  attrib : Option (List (Str × Str))
  children : List Nat
deriving DecidableEq

/-- An `ElementObject`: tag, tagged `text` and `tail` pointers, the
lazily allocated `extra` section (`none` models `self->extra == NULL`),
and the optional `(line, column, byteOffset)` start/end positions. -/
structure ElementData where
  tag : PyVal
  text : TaggedText
  tail : TaggedText
  extra : Option ExtraRec
  startPos : Option (Int × Int × Int)
  endPos : Option (Int × Int × Int)
deriving DecidableEq

/-- `create_new_element` via `feed_new_element`: `text`/`tail` start as
`Py_None`; the extra section is allocated only when a non-`None`,
non-empty attribute dictionary is supplied. -/
def create_new_element (tag : PyVal) (attrib : Option (List (Str × Str))) : ElementData :=
  { tag := tag
    text := TaggedText.pyNone
    tail := TaggedText.pyNone
    extra :=
      match attrib with
      | Option.none => Option.none
      | some d => if d.isEmpty then Option.none else some ⟨some d, []⟩
    startPos := Option.none
    endPos := Option.none }

/-- `element_get_text`: if the join bit is set and the payload is a list,
join the fragments and memoize the joined string in place (clearing the
join bit); otherwise return the payload untouched.  Returns the value
read together with the (possibly memoized) element. -/
def element_get_text (e : ElementData) : PyVal × ElementData :=
  if e.text.join then
    match e.text.obj with
    | PyVal.strList l =>
        (PyVal.str (list_join l), { e with text := ⟨PyVal.str (list_join l), false⟩ })
    | v => (v, e)
  else (e.text.obj, e)

/-- `element_get_tail`: same as `element_get_text` for the `tail` slot. -/
def element_get_tail (e : ElementData) : PyVal × ElementData :=
  if e.tail.join then
    match e.tail.obj with
    | PyVal.strList l =>
        (PyVal.str (list_join l), { e with tail := ⟨PyVal.str (list_join l), false⟩ })
    | v => (v, e)
  else (e.tail.obj, e)

/-- The `text` branch of `element_setattro`: a caller-assigned value is
stored as-is, with the join bit clear (`self->text = value`). -/
def element_setattro_text (e : ElementData) (v : PyVal) : ElementData :=
  { e with text := ⟨v, false⟩ }

/-- The `tail` branch of `element_setattro`. -/
def element_setattro_tail (e : ElementData) (v : PyVal) : ElementData :=
  { e with tail := ⟨v, false⟩ }

/-- `treebuilder_set_element_text` on an exact `Element`: store the
collector value with the join bit set exactly when the value is a list
(`JOIN_SET(data, PyList_CheckExact(data))`). -/
def treebuilder_set_element_text (e : ElementData) (data : PyVal) : ElementData :=
  { e with text := ⟨data, data.isList⟩ }

/-- `treebuilder_set_element_tail` on an exact `Element`. -/
def treebuilder_set_element_tail (e : ElementData) (data : PyVal) : ElementData :=
  { e with tail := ⟨data, data.isList⟩ }

/-- `element_get`: read-only attribute lookup.  With no extra section, or
an extra section whose attribute slot is still `Py_None`, the default is
returned; the element is never modified. -/
def element_get (e : ElementData) (key : Str) (dflt : PyVal) : PyVal × ElementData :=
  match e.extra with
  | Option.none => (dflt, e)
  | some ex =>
    match ex.attrib with
    | Option.none => (dflt, e)
    | some d =>
      match dictGet d key with
      | some v => (PyVal.str v, e)
      | Option.none => (dflt, e)

/-- `element_items`: read-only; an element without attribute storage
yields a fresh empty list. -/
def element_items (e : ElementData) : List (Str × Str) × ElementData :=
  match e.extra with
  | Option.none => ([], e)
  | some ex =>
    match ex.attrib with
    | Option.none => ([], e)
    | some d => (d, e)

/-- `element_keys`: read-only; an element without attribute storage
yields a fresh empty list. -/
def element_keys (e : ElementData) : List Str × ElementData :=
  match e.extra with
  | Option.none => ([], e)
  | some ex =>
    match ex.attrib with
    | Option.none => ([], e)
    | some d => (d.map (·.1), e)

/-- `element_set`: `create_extra(self, NULL)` when the extra section is
absent, then `element_get_attrib` (which materializes a missing
dictionary), then `PyDict_SetItem`. -/
def element_set (e : ElementData) (k v : Str) : ElementData :=
  let e1 :=
    match e.extra with
    | Option.none => { e with extra := some (⟨Option.none, []⟩ : ExtraRec) }
    | some _ => e
  match e1.extra with
  | some ex =>
    let d := match ex.attrib with
      | Option.none => []
      | some d => d
    { e1 with extra := some ⟨some (dictSet d k v), ex.children⟩ }
  | Option.none => e1

/-- The `attrib` branch of `element_getattro`: `create_extra(self, NULL)`
when the extra section is absent, then `element_get_attrib`, which
replaces a `Py_None` attribute slot by a fresh empty dictionary stored on
the element.  Returns the dictionary read together with the mutated
element. -/
def element_getattro_attrib (e : ElementData) : List (Str × Str) × ElementData :=
  let e1 :=
    match e.extra with
    | Option.none => { e with extra := some (⟨Option.none, []⟩ : ExtraRec) }
    | some _ => e
  match e1.extra with
  | some ex =>
    match ex.attrib with
    | Option.none => ([], { e1 with extra := some ⟨some [], ex.children⟩ })
    | some d => (d, e1)
  | Option.none => ([], e1)

/-- The capacity arithmetic of `element_resize`: with `size` the current
length plus the extra slots requested, growth beyond the allocated
capacity reallocates to `(size >> 3) + (size < 9 ? 3 : 6) + size` slots,
guarded to at least one slot (`size = size ? size : 1`); otherwise the
allocation is untouched. -/
def element_resize_alloc (length allocated extra : Nat) : Nat :=
  let size := length + extra
  if size > allocated then
    let size2 := (size >>> 3) + (if size < 9 then 3 else 6) + size
    if size2 = 0 then 1 else size2
  else allocated

/-- `element_add_subelement`: `element_resize(self, 1)` creates the extra
section when absent (`create_extra(self, NULL)`, attribute slot
`Py_None`), then the child is appended. -/
def element_add_subelement (e : ElementData) (child : Nat) : ElementData :=
  match e.extra with
  | Option.none => { e with extra := some (⟨Option.none, [child]⟩ : ExtraRec) }
  | some ex => { e with extra := some ⟨ex.attrib, ex.children ++ [child]⟩ }

/-- The child list of an element (empty when the extra section is
absent, as in `element_length`). -/
def elemChildren (e : ElementData) : List Nat :=
  match e.extra with
  | Option.none => []
  | some ex => ex.children

/-- Functional in-place update of the heap cell at address `i` (a no-op
when the address is out of range, which never happens for addresses the
builder hands out). -/
def modifyIdx (f : ElementData → ElementData) : List ElementData → Nat → List ElementData
  | [], _ => []
  | a :: l, 0 => f a :: l
  | a :: l, n + 1 => a :: modifyIdx f l n

/-- The tree builder's pending-data collector (`self->data`): a single
string until a second fragment arrives, then a list of fragments.  The
absent collector (`self->data == NULL`) is `Option.none` one level up. -/
inductive DataAcc where
  | one (s : Str)
  | many (l : List Str)
deriving DecidableEq

/-- The collector as the Python object handed to
`treebuilder_set_element_text`/`_tail`. -/
def DataAcc.toPyVal : DataAcc → PyVal
  | .one s => PyVal.str s
  | .many l => PyVal.strList l

/-- An entry of the builder's event list: `(action, node)` pairs appended
for start and end events. -/
inductive TBEvent where
  | startEv (node : Nat)
  | endEv (node : Option Nat)
deriving DecidableEq

/-- Builder-level fatal errors: the "multiple elements on top level"
`ParseError`, the "pop from empty stack" `IndexError`, and the
`AttributeError` a flush into `Py_None` would raise (unreachable under
the builder's own discipline). -/
inductive TBErr where
  | multipleRoots
  | popFromEmptyStack
  | flushToNone
deriving DecidableEq

/-- The `TreeBuilderObject` state.  Elements are heap addresses into
`heap`; `Py_None` element slots are `Option.none`.  The C code keeps the
stack as a pre-sized `PyList` plus a separate `index`; only the slots
below `index` are ever read, so the stack is modelled as the list of
exactly those slots (push appends, pop drops the last).  The
`start_event_obj`/`end_event_obj` slots are modelled as the booleans
`startEvents`/`endEvents` (event collection enabled), and `events` is
the collected event list. -/
structure TreeBuilderState where
  heap : List ElementData
  root : Option Nat
  this : Option Nat
  last : Option Nat
  data : Option DataAcc
  stack : List (Option Nat)
  events : List TBEvent
  startEvents : Bool
  endEvents : Bool
deriving DecidableEq

/-- The state of a fresh builder (`treebuilder_new`). -/
def treebuilder_new : TreeBuilderState :=
  { heap := [], root := Option.none, this := Option.none, last := Option.none
    data := Option.none, stack := [], events := []
    startEvents := false, endEvents := false }

/-- The flush prologue shared by `treebuilder_handle_start` and
`treebuilder_handle_end`: with a pending collector, attach it to `last`'s
`text` slot when `self->this == self->last`, and to `last`'s `tail` slot
otherwise, then clear the collector.  (When `last` is still `Py_None`
the C code would raise an `AttributeError` setting an attribute on
`None` and leave the collector in place; that state is unreachable,
since `treebuilder_handle_data` drops data arriving before the first
start.) -/
def treebuilder_flush_data (st : TreeBuilderState) : TreeBuilderState × Option TBErr :=
  match st.data with
  | Option.none => (st, Option.none)
  | some acc =>
    match st.last with
    | Option.none => (st, some TBErr.flushToNone)
    | some l =>
      if st.this = st.last then
        ({ st with
            heap := modifyIdx (fun e => treebuilder_set_element_text e acc.toPyVal) st.heap l
            data := Option.none }, Option.none)
      else
        ({ st with
            heap := modifyIdx (fun e => treebuilder_set_element_tail e acc.toPyVal) st.heap l
            data := Option.none }, Option.none)

/-- The epilogue of `treebuilder_handle_start`: push the previous open
element, make the new node both `this` and `last`, and record a start
event when enabled. -/
def treebuilder_start_finish (st : TreeBuilderState) (nodeId : Nat) :
    TreeBuilderState × Except TBErr Nat :=
  let st1 := { st with stack := st.stack ++ [st.this], this := some nodeId, last := some nodeId }
  let st2 :=
    if st1.startEvents then { st1 with events := st1.events ++ [TBEvent.startEv nodeId] }
    else st1
  (st2, Except.ok nodeId)

/-- `treebuilder_handle_start`: flush pending text, create the new
element (default factory `create_new_element`; a custom
`element_factory` is not modelled) with its start position, then append
it to the open element — or, when no element is open, record it as the
root, failing with the fatal "multiple elements on top level" error if a
root already exists (the freshly created node is released, so it never
enters the heap).  Finally push and record an event.  Errors return the
state as mutated up to the point of the error, as the C code leaves it. -/
def treebuilder_handle_start (st : TreeBuilderState) (tag : PyVal)
    (attrib : Option (List (Str × Str))) (line col pos : Int) :
    TreeBuilderState × Except TBErr Nat :=
  match treebuilder_flush_data st with
  | (st1, some e) => (st1, Except.error e)
  | (st1, Option.none) =>
    let nodeId := st1.heap.length
    let node := { create_new_element tag attrib with startPos := some (line, col, pos) }
    match st1.this with
    | some t =>
        treebuilder_start_finish
          { st1 with heap := modifyIdx (fun e => element_add_subelement e nodeId) (st1.heap ++ [node]) t }
          nodeId
    | Option.none =>
        if st1.root.isSome then (st1, Except.error TBErr.multipleRoots)
        else
          treebuilder_start_finish
            { st1 with heap := st1.heap ++ [node], root := some nodeId } nodeId

/-- `treebuilder_handle_data`: data before the first start is silently
ignored; the first fragment is stored as-is; a second fragment promotes
the collector to a two-element list; later fragments are appended.  (The
byte-string single-character resize branch is dead code under Python 3 —
the decoded data is always a unicode string — and is not modelled.) -/
def treebuilder_handle_data (st : TreeBuilderState) (d : Str) : TreeBuilderState :=
  match st.data with
  | Option.none =>
    if st.last = Option.none then st
    else { st with data := some (DataAcc.one d) }
  | some (DataAcc.one s) => { st with data := some (DataAcc.many [s, d]) }
  | some (DataAcc.many l) => { st with data := some (DataAcc.many (l ++ [d])) }

/-- `treebuilder_handle_end`: flush pending text, fail on an empty stack
("pop from empty stack"), otherwise pop the stack into `this`, move the
previously open element into `last`, record its end position, record an
end event when enabled, and return that element.  The `tag` argument is
never consulted (the C comment: "the standard tree builder doesn't look
at the end tag"). -/
def treebuilder_handle_end (st : TreeBuilderState) (tag : PyVal) (line col pos : Int) :
    TreeBuilderState × Except TBErr (Option Nat) :=
  match treebuilder_flush_data st with
  | (st1, some e) => (st1, Except.error e)
  | (st1, Option.none) =>
    if st1.stack.length = 0 then (st1, Except.error TBErr.popFromEmptyStack)
    else
      let item := st1.stack.getLast?.getD Option.none
      let heap' :=
        match st1.this with
        | some i => modifyIdx (fun e => { e with endPos := some (line, col, pos) }) st1.heap i
        | Option.none => st1.heap
      let st2 :=
        { st1 with
            stack := st1.stack.dropLast, this := item, last := st1.this, heap := heap' }
      let st3 :=
        if st2.endEvents then { st2 with events := st2.events ++ [TBEvent.endEv st1.this] }
        else st2
      (st3, Except.ok st1.this)

/-- The `TreeBuilder_CheckExact` branch of `expat_end_handler`: the
adapter always hands `Py_None` to the builder as the end tag. -/
def expat_end_handler (st : TreeBuilderState) (line col pos : Int) :
    TreeBuilderState × Except TBErr (Option Nat) :=
  treebuilder_handle_end st PyVal.none line col pos

/-- Collapse a tagged text slot the way the first read through
`element_get_text`/`element_get_tail` memoizes it. -/
def collapseTagged (t : TaggedText) : TaggedText :=
  if t.join then
    match t.obj with
    | PyVal.strList l => ⟨PyVal.str (list_join l), false⟩
    | _ => t
  else t

/-- Collapse both text slots of an element. -/
def collapseElement (e : ElementData) : ElementData :=
  { e with text := collapseTagged e.text, tail := collapseTagged e.tail }

/-- Collapse every element of a builder state: the view of the built
tree after its lazily joined text has been read. -/
def collapseTB (st : TreeBuilderState) : TreeBuilderState :=
  { st with heap := st.heap.map collapseElement }

/- -------------------------------------------------------------------- -/
/- Slice assignment on a child array -/

/-- The sequential index clamping of `PySlice_GetIndicesEx` applied to an
explicitly given start/stop component: add the length to a negative
index, then clamp below to `-1`/`0` and above to `length-1`/`length`
according to the sign of the step. -/
def pyAdjustIndex (length step i0 : Int) : Int :=
  let i1 := if i0 < 0 then i0 + length else i0
  let i2 := if i1 < 0 then (if step < 0 then -1 else 0) else i1
  if i2 ≥ length then (if step < 0 then length - 1 else length) else i2

/-- `PySlice_GetIndicesEx`: normalize the optional start/stop/step of a
slice against a sequence length, producing the clamped `start`, `stop`,
the step, and the slice length.  A zero step is an error.  (The clamp of
an overflowing step magnitude to `PY_SSIZE_T_MAX` is not modelled:
mathematical integers do not overflow.)  Division truncates toward zero
as in C, but both operands are non-negative at the division. -/
def pySliceGetIndicesEx (length : Nat) (start? stop? step? : Option Int) :
    Except String (Int × Int × Int × Nat) :=
  let L : Int := (length : Int)
  let step := step?.getD 1
  if step = 0 then Except.error "slice step cannot be zero"
  else
    let start :=
      match start? with
      | Option.none => if step < 0 then L - 1 else 0
      | some s => pyAdjustIndex L step s
    let stop :=
      match stop? with
      | Option.none => if step < 0 then -1 else L
      | some s => pyAdjustIndex L step s
    let slicelen : Int :=
      if step < 0 then
        if stop < start then (start - stop - 1).tdiv (-step) + 1 else 0
      else
        if start < stop then (stop - start - 1).tdiv step + 1 else 0
    Except.ok (start, stop, step, slicelen.toNat)

/-- The child buffer of an element as the C code sees it during
`element_ass_subscr`: a flat array addressed by `Py_ssize_t` (reads
beyond `len` hit allocated-but-dead slots) plus the live length. -/
structure ChildBuf (α : Type) where
  buf : Int → α
  len : Nat

/-- The live children of a buffer. -/
def childList {α : Type} (c : ChildBuf α) : List α :=
  (List.range c.len).map fun i => c.buf (i : Int)

/-- The ascending index range `[a, b)` over the integers. -/
def intRange (a b : Int) : List Int :=
  (List.range (b - a).toNat).map fun k => a + (k : Int)

/-- Errors of the slice-assignment path: the `ValueError` for a
length-mismatched extended slice, and the `ValueError` for a zero
step raised by the slice normalization. -/
inductive SliceErr where
  | lengthMismatch
  | zeroStep
deriving DecidableEq

/-- The slice branch of `element_ass_subscr` with a replacement sequence
(`value != NULL`), on the child buffer: normalize the slice; raise the
"attempt to assign sequence of size N to extended slice of size L"
`ValueError` when the step is not `1` and the lengths differ — before
any mutation, so the buffer is returned unchanged; otherwise shift the
tail of the buffer down (ascending loop) or up (descending loop) by the
length difference, write the replacement at `start`, `start + step`, …,
and adjust the length.  (The `recycle` list only manages reference
counts and is not modelled; `element_resize` only grows the allocated
capacity, modelled separately by `element_resize_alloc`.) -/
def element_ass_subscr_slice {α : Type} (c : ChildBuf α)
    (start? stop? step? : Option Int) (seq : List α) : ChildBuf α × Option SliceErr :=
  match pySliceGetIndicesEx c.len start? stop? step? with
  | Except.error _ => (c, some SliceErr.zeroStep)
  | Except.ok (start, stop, step, slicelen) =>
    let newlen := seq.length
    if step ≠ 1 ∧ newlen ≠ slicelen then (c, some SliceErr.lengthMismatch)
    else
      let d : Int := (newlen : Int) - (slicelen : Int)
      let buf1 :=
        if newlen < slicelen then
          (intRange stop (c.len : Int)).foldl
            (fun b i => Function.update b (i + d) (b i)) c.buf
        else if slicelen < newlen then
          (intRange stop (c.len : Int)).reverse.foldl
            (fun b i => Function.update b (i + d) (b i)) c.buf
        else c.buf
      let buf2 :=
        seq.enum.foldl (fun b p => Function.update b (start + (p.1 : Int) * step) p.2) buf1
      ({ buf := buf2, len := c.len + newlen - slicelen }, Option.none)

/- -------------------------------------------------------------------- -/
/- The expat default handler -/

/-- The expat error code `XML_ERROR_UNDEFINED_ENTITY` (from the expat
`XML_Error` enumeration). -/
def XML_ERROR_UNDEFINED_ENTITY : Nat := 11

/-- A `ParseError` object as built by `expat_set_error`: the formatted
message, the numeric tokenizer `code`, and the `(line, column)`
position. -/
structure ExpatError where
  message : Str
  code : Nat
  position : Int × Int
deriving DecidableEq

/-- `expat_set_error` with an explicit message: format
`"<message>: line <L>, column <C>"`, attach code and position.  (The
resulting object is recorded as the pending Python error —
`PyErr_SetObject` — by the caller of this value.) -/
def expat_set_error (error_code : Nat) (line column : Int) (message : Str) : ExpatError :=
  { message :=
      message ++ (String.toList (": line ")) ++ (toString line).toList
        ++ (String.toList (", column ")) ++ (toString column).toList
    code := error_code
    position := (line, column) }

/-- The slice of the `XMLParserObject` state the default handler
touches: the caller-populated `entity` substitution map, the pending
Python error slot (`PyErr_Occurred`/`PyErr_SetObject`), the builder
target (the `TreeBuilder_CheckExact` fast path), and the tokenizer's
current error position. -/
structure XMLParserState where
  entity : List (Str × Str)
  pendingError : Option ExpatError
  target : TreeBuilderState
  errLine : Int
  errCol : Int
deriving DecidableEq

/-- `expat_default_handler`: ignore anything that is not an entity
reference (`data_len < 2 || data_in[0] != '&'`); strip the leading `&`
and the trailing `;` to obtain the entity name; a name found in the
`entity` map is forwarded to the target as character data; an absent
name raises the fatal undefined-entity `ParseError` — message
`"undefined entity <raw reference>"` truncated to 100 raw characters,
code `XML_ERROR_UNDEFINED_ENTITY`, at the tokenizer's error position —
but only when no error is already pending ("Report the first error, not
the last"). -/
def expat_default_handler (st : XMLParserState) (data : Str) : XMLParserState :=
  if data.length < 2 ∨ data.head? ≠ some '&' then st
  else
    let key := (data.drop 1).take (data.length - 2)
    match dictGet st.entity key with
    | some value => { st with target := treebuilder_handle_data st.target value }
    | Option.none =>
      if st.pendingError.isSome then st
      else
        { st with
            pendingError := some (expat_set_error XML_ERROR_UNDEFINED_ENTITY
              st.errLine st.errCol
              ((String.toList ("undefined entity ")) ++ data.take 100)) }

/- ==================================================================== -/
/- Helper lemmas -/

theorem list_join_eq_foldl_acc (l : List Str) :
    ∀ acc : Str, l.foldl (· ++ ·) acc = acc ++ l.flatten := by
  induction l with
  | nil => intro acc; simp
  | cons a l ih => intro acc; simp [List.foldl_cons, ih, List.append_assoc]

theorem list_join_eq_join (l : List Str) : list_join l = l.flatten := by
  simpa [list_join] using list_join_eq_foldl_acc l []

theorem list_join_append_pair (l : List Str) (s1 s2 : Str) :
    list_join (l ++ [s1, s2]) = list_join (l ++ [s1 ++ s2]) := by
  simp [list_join_eq_join, List.append_assoc]

theorem modifyIdx_length (f : ElementData → ElementData) :
    ∀ (l : List ElementData) (i : Nat), (modifyIdx f l i).length = l.length := by
  intro l
  induction l with
  | nil => intro i; simp [modifyIdx]
  | cons a l ih =>
    intro i
    cases i with
    | zero => simp [modifyIdx]
    | succ n => simp [modifyIdx, ih]

theorem modifyIdx_get?_self (f : ElementData → ElementData) :
    ∀ (l : List ElementData) (i : Nat), (modifyIdx f l i).get? i = (l.get? i).map f := by
  intro l
  induction l with
  | nil => intro i; simp [modifyIdx]
  | cons a l ih =>
    intro i
    cases i with
    | zero => simp [modifyIdx]
    | succ n => simpa [modifyIdx] using ih n

theorem modifyIdx_get?_ne (f : ElementData → ElementData) :
    ∀ (l : List ElementData) (i j : Nat), i ≠ j →
      (modifyIdx f l i).get? j = l.get? j := by
  intro l
  induction l with
  | nil => intro i j _; simp [modifyIdx]
  | cons a l ih =>
    intro i j hij
    cases i with
    | zero =>
      cases j with
      | zero => exact absurd rfl hij
      | succ m => simp [modifyIdx]
    | succ n =>
      cases j with
      | zero => simp [modifyIdx]
      | succ m => simpa [modifyIdx] using ih n m (by omega)

theorem map_modifyIdx_of_preserve {β : Type} (g : ElementData → β)
    (f : ElementData → ElementData) (h : ∀ e, g (f e) = g e) :
    ∀ (l : List ElementData) (i : Nat), (modifyIdx f l i).map g = l.map g := by
  intro l
  induction l with
  | nil => intro i; simp [modifyIdx]
  | cons a l ih =>
    intro i
    cases i with
    | zero => simp [modifyIdx, h]
    | succ n => simp [modifyIdx, ih]

theorem map_modifyIdx_comm (g f f' : ElementData → ElementData)
    (h : ∀ e, g (f e) = f' (g e)) :
    ∀ (l : List ElementData) (i : Nat),
      (modifyIdx f l i).map g = modifyIdx f' (l.map g) i := by
  intro l
  induction l with
  | nil => intro i; simp [modifyIdx]
  | cons a l ih =>
    intro i
    cases i with
    | zero => simp [modifyIdx, h]
    | succ n => simp [modifyIdx, ih]

theorem elemChildren_set_text (e : ElementData) (v : PyVal) :
    elemChildren (treebuilder_set_element_text e v) = elemChildren e := rfl

theorem elemChildren_set_tail (e : ElementData) (v : PyVal) :
    elemChildren (treebuilder_set_element_tail e v) = elemChildren e := rfl

/-- The flush prologue only rewrites text/tail slots: every other
component of the builder state, the heap length, and every element's
child list are untouched. -/
theorem treebuilder_flush_data_preserves (st : TreeBuilderState) :
    (treebuilder_flush_data st).1.root = st.root ∧
    (treebuilder_flush_data st).1.this = st.this ∧
    (treebuilder_flush_data st).1.last = st.last ∧
    (treebuilder_flush_data st).1.stack = st.stack ∧
    (treebuilder_flush_data st).1.events = st.events ∧
    (treebuilder_flush_data st).1.startEvents = st.startEvents ∧
    (treebuilder_flush_data st).1.endEvents = st.endEvents ∧
    (treebuilder_flush_data st).1.heap.length = st.heap.length ∧
    (treebuilder_flush_data st).1.heap.map elemChildren = st.heap.map elemChildren := by
  unfold treebuilder_flush_data
  rcases hd : st.data with _ | acc
  · simp [hd]
  · rcases hl : st.last with _ | l
    · simp [hd, hl]
    · by_cases ht : st.this = st.last
      · rw [hl] at ht
        simp [hd, hl, ht, modifyIdx_length]
        exact map_modifyIdx_of_preserve elemChildren
          (fun e => treebuilder_set_element_text e acc.toPyVal) (fun e => rfl) st.heap l
      · rw [hl] at ht
        simp [hd, hl, ht, modifyIdx_length]
        exact map_modifyIdx_of_preserve elemChildren
          (fun e => treebuilder_set_element_tail e acc.toPyVal) (fun e => rfl) st.heap l

/-- With a non-absent collector and a non-`None` `last`, the flush
prologue succeeds. -/
theorem treebuilder_flush_data_ok (st : TreeBuilderState) (l : Nat)
    (hl : st.last = some l) :
    (treebuilder_flush_data st).2 = Option.none := by
  unfold treebuilder_flush_data
  rcases hd : st.data with _ | acc
  · simp [hd]
  · rw [hl]
    by_cases ht : st.this = st.last
    · rw [hl] at ht
      simp [ht]
    · rw [hl] at ht
      simp [ht]

theorem treebuilder_flush_data_of_none (st : TreeBuilderState)
    (hd : st.data = Option.none) : treebuilder_flush_data st = (st, Option.none) := by
  unfold treebuilder_flush_data
  rw [hd]

/- ==================================================================== -/
/- Claim theorems -/

/-- C2 (join-pending text): text or tail stored by the tree builder as a
fragment list is returned joined into a single string by the first read,
which memoizes the joined string in place; a subsequent read returns the
memoized string and leaves the element untouched.  A value assigned by a
caller through the attribute-setting path — any value, including a list —
is returned exactly as stored by every read, never auto-joined, and the
read does not modify the element. -/
theorem xetree_C2_join_pending_text (e : ElementData) (l : List Str) (v : PyVal) :
    (element_get_text (treebuilder_set_element_text e (PyVal.strList l)) =
      (PyVal.str (list_join l),
        { treebuilder_set_element_text e (PyVal.strList l) with
            text := ⟨PyVal.str (list_join l), false⟩ })) ∧
    (element_get_text { e with text := ⟨PyVal.str (list_join l), false⟩ } =
      (PyVal.str (list_join l), { e with text := ⟨PyVal.str (list_join l), false⟩ })) ∧
    (element_get_text (element_setattro_text e v) = (v, element_setattro_text e v)) ∧
    (element_get_tail (treebuilder_set_element_tail e (PyVal.strList l)) =
      (PyVal.str (list_join l),
        { treebuilder_set_element_tail e (PyVal.strList l) with
            tail := ⟨PyVal.str (list_join l), false⟩ })) ∧
    (element_get_tail { e with tail := ⟨PyVal.str (list_join l), false⟩ } =
      (PyVal.str (list_join l), { e with tail := ⟨PyVal.str (list_join l), false⟩ })) ∧
    (element_get_tail (element_setattro_tail e v) = (v, element_setattro_tail e v)) := by
  refine ⟨rfl, rfl, ?_, rfl, rfl, ?_⟩ <;>
    simp [element_get_text, element_get_tail, element_setattro_text, element_setattro_tail]

/-- C7 (child-array growth policy): whenever the requested total size
`length + extra` exceeds the allocated capacity, `element_resize`
reallocates to exactly `size + size/8 + (3 if size < 9 else 6)` slots,
with a minimum of one slot. -/
theorem xetree_C7_growth_policy (length allocated extra : Nat)
    (h : allocated < length + extra) :
    element_resize_alloc length allocated extra =
      max ((length + extra) + (length + extra) / 8 +
        (if length + extra < 9 then 3 else 6)) 1 := by
  simp only [element_resize_alloc, Nat.shiftRight_eq_div_pow]
  norm_num
  split
  · split <;> split <;> omega
  · omega

/-- Witness for C7 at `length = 4`, `allocated = 4`, `extra = 1`. -/
theorem xetree_C7_growth_policy_witness :
    4 < 4 + 1 ∧
    element_resize_alloc 4 4 1 =
      max ((4 + 1) + (4 + 1) / 8 + (if 4 + 1 < 9 then 3 else 6)) 1 :=
  ⟨by decide, xetree_C7_growth_policy 4 4 1 (by decide)⟩

/-- C8 (read-only attribute queries do not allocate): on an element
without an extra section, `get` returns the default and `items`/`keys`
return empty lists, all leaving the element — in particular its absent
attribute storage — exactly as it was; only `set` allocates the extra
section and the dictionary. -/
theorem xetree_C8_readonly_queries_no_alloc (e : ElementData) (key k v : Str)
    (dflt : PyVal) (h : e.extra = Option.none) :
    element_get e key dflt = (dflt, e) ∧
    element_items e = ([], e) ∧
    element_keys e = ([], e) ∧
    (element_get e key dflt).2.extra = Option.none ∧
    (element_items e).2.extra = Option.none ∧
    (element_keys e).2.extra = Option.none ∧
    (element_set e k v).extra = some ⟨some (dictSet [] k v), []⟩ := by
  simp [element_get, element_items, element_keys, element_set, h]

/-- Witness for C8 on a freshly constructed attribute-less element. -/
theorem xetree_C8_readonly_queries_no_alloc_witness :
    (create_new_element (PyVal.str ['a']) (some [])).extra = Option.none ∧
    (element_get (create_new_element (PyVal.str ['a']) (some [])) ['k'] PyVal.none =
        (PyVal.none, create_new_element (PyVal.str ['a']) (some [])) ∧
      element_items (create_new_element (PyVal.str ['a']) (some [])) =
        ([], create_new_element (PyVal.str ['a']) (some [])) ∧
      element_keys (create_new_element (PyVal.str ['a']) (some [])) =
        ([], create_new_element (PyVal.str ['a']) (some [])) ∧
      (element_get (create_new_element (PyVal.str ['a']) (some [])) ['k'] PyVal.none).2.extra =
        Option.none ∧
      (element_items (create_new_element (PyVal.str ['a']) (some []))).2.extra =
        Option.none ∧
      (element_keys (create_new_element (PyVal.str ['a']) (some []))).2.extra =
        Option.none ∧
      (element_set (create_new_element (PyVal.str ['a']) (some [])) ['k'] ['v']).extra =
        some ⟨some (dictSet [] ['k'] ['v']), []⟩) :=
  ⟨by decide,
    xetree_C8_readonly_queries_no_alloc (create_new_element (PyVal.str ['a']) (some []))
      ['k'] ['k'] ['v'] PyVal.none (by decide)⟩

/-- C9 (reading `attrib` materializes storage): on an element without an
extra section, a read of the `attrib` attribute allocates the extra
section together with an empty attribute dictionary and stores both on
the element, returning the empty dictionary — in contrast to the
read-only `get`/`items`/`keys` queries, which leave the storage
absent. -/
theorem xetree_C9_attrib_read_materializes (e : ElementData) (key : Str) (dflt : PyVal)
    (h : e.extra = Option.none) :
    element_getattro_attrib e = ([], { e with extra := some ⟨some [], []⟩ }) ∧
    (element_getattro_attrib e).2.extra = some ⟨some [], []⟩ ∧
    (element_get e key dflt).2 = e ∧
    (element_items e).2 = e ∧
    (element_keys e).2 = e := by
  simp [element_getattro_attrib, element_get, element_items, element_keys, h]

theorem treebuilder_start_finish_data (st : TreeBuilderState) (n : Nat) :
    (treebuilder_start_finish st n).1.data = st.data := by
  unfold treebuilder_start_finish
  by_cases h : st.startEvents <;> simp [h]

theorem treebuilder_start_finish_heap (st : TreeBuilderState) (n : Nat) :
    (treebuilder_start_finish st n).1.heap = st.heap := by
  unfold treebuilder_start_finish
  by_cases h : st.startEvents <;> simp [h]

theorem text_add_subelement (e : ElementData) (c : Nat) :
    (element_add_subelement e c).text = e.text := by
  unfold element_add_subelement
  split <;> rfl

theorem tail_add_subelement (e : ElementData) (c : Nat) :
    (element_add_subelement e c).tail = e.tail := by
  unfold element_add_subelement
  split <;> rfl

theorem modifyIdx_getElem?_self (f : ElementData → ElementData) :
    ∀ (l : List ElementData) (i : Nat), (modifyIdx f l i)[i]? = (l[i]?).map f := by
  intro l
  induction l with
  | nil => intro i; simp [modifyIdx]
  | cons a l ih =>
    intro i
    cases i with
    | zero => simp [modifyIdx]
    | succ n => simpa [modifyIdx] using ih n

theorem modifyIdx_getElem?_ne (f : ElementData → ElementData) :
    ∀ (l : List ElementData) (i j : Nat), i ≠ j →
      (modifyIdx f l i)[j]? = l[j]? := by
  intro l
  induction l with
  | nil => intro i j _; simp [modifyIdx]
  | cons a l ih =>
    intro i j hij
    cases i with
    | zero =>
      cases j with
      | zero => exact absurd rfl hij
      | succ m => simp [modifyIdx]
    | succ n =>
      cases j with
      | zero => simp [modifyIdx]
      | succ m => simpa [modifyIdx] using ih n m (by omega)

/-- C1 (flush rule): on a builder state with a pending text accumulator
and a `last` element, both the start transition and the end transition
attach the accumulated value — tagged for lazy joining exactly when it
is a fragment list — to `last`'s `text` slot when the currently open
element equals `last`, and to `last`'s `tail` slot otherwise, and leave
the accumulator cleared. -/
theorem xetree_C1_flush_rule (st : TreeBuilderState) (acc : DataAcc) (l : Nat)
    (tag : PyVal) (attrib : Option (List (Str × Str))) (line col pos : Int)
    (hdata : st.data = some acc) (hlast : st.last = some l)
    (hl : l < st.heap.length) :
    ((treebuilder_handle_start st tag attrib line col pos).1.data = Option.none ∧
      (st.this = st.last →
        (((treebuilder_handle_start st tag attrib line col pos).1.heap[l]?).map
            (·.text)) = some ⟨acc.toPyVal, acc.toPyVal.isList⟩) ∧
      (st.this ≠ st.last →
        (((treebuilder_handle_start st tag attrib line col pos).1.heap[l]?).map
            (·.tail)) = some ⟨acc.toPyVal, acc.toPyVal.isList⟩)) ∧
    ((treebuilder_handle_end st tag line col pos).1.data = Option.none ∧
      (st.this = st.last →
        (((treebuilder_handle_end st tag line col pos).1.heap[l]?).map
            (·.text)) = some ⟨acc.toPyVal, acc.toPyVal.isList⟩) ∧
      (st.this ≠ st.last →
        (((treebuilder_handle_end st tag line col pos).1.heap[l]?).map
            (·.tail)) = some ⟨acc.toPyVal, acc.toPyVal.isList⟩)) := by
  obtain ⟨e, he⟩ : ∃ e, st.heap[l]? = some e :=
    ⟨st.heap[l], List.getElem?_eq_getElem hl⟩
  by_cases ht : st.this = st.last
  · -- pending text goes to `last.text`
    have hthis : st.this = some l := ht.trans hlast
    have hfl : treebuilder_flush_data st =
        ({ st with
            heap := modifyIdx (fun e => treebuilder_set_element_text e acc.toPyVal) st.heap l
            data := Option.none }, Option.none) := by
      unfold treebuilder_flush_data
      rw [hdata, hlast]
      simp [hthis]
    have hgetF : (modifyIdx (fun e => treebuilder_set_element_text e acc.toPyVal)
        st.heap l)[l]? = some (treebuilder_set_element_text e acc.toPyVal) := by
      rw [modifyIdx_getElem?_self, he]
      rfl
    have hlenF : (modifyIdx (fun e => treebuilder_set_element_text e acc.toPyVal)
        st.heap l).length = st.heap.length := modifyIdx_length _ _ _
    refine ⟨⟨?_, fun _ => ?_, fun hne => absurd ht hne⟩,
      ⟨?_, fun _ => ?_, fun hne => absurd ht hne⟩⟩
    · unfold treebuilder_handle_start
      rw [hfl]
      simp only [hthis]
      rw [treebuilder_start_finish_data]
    · unfold treebuilder_handle_start
      rw [hfl]
      simp only [hthis]
      rw [treebuilder_start_finish_heap]
      simp [modifyIdx_getElem?_self, modifyIdx_length, List.getElem?_append_left,
        hl, he, text_add_subelement, treebuilder_set_element_text,
        -List.getElem?_eq_getElem]
    · unfold treebuilder_handle_end
      rw [hfl]
      by_cases hstk : st.stack.length = 0
      · simp only [hstk, if_true, ite_true]
      · simp only [hstk, if_false, ite_false, hthis]
        split <;> rfl
    · unfold treebuilder_handle_end
      rw [hfl]
      by_cases hstk : st.stack.length = 0
      · simp only [hstk, if_true, ite_true]
        rw [hgetF]
        rfl
      · simp only [hstk, if_false, ite_false, hthis]
        have hget2 : ((modifyIdx (fun e => { e with endPos := some (line, col, pos) })
            (modifyIdx (fun e => treebuilder_set_element_text e acc.toPyVal) st.heap l)
            l)[l]?).map (·.text) = some ⟨acc.toPyVal, acc.toPyVal.isList⟩ := by
          rw [modifyIdx_getElem?_self, hgetF]
          rfl
        split <;> exact hget2
  · -- pending text goes to `last.tail`
    have hthisne : ¬st.this = some l := fun h => ht (h.trans hlast.symm)
    have hfl : treebuilder_flush_data st =
        ({ st with
            heap := modifyIdx (fun e => treebuilder_set_element_tail e acc.toPyVal) st.heap l
            data := Option.none }, Option.none) := by
      unfold treebuilder_flush_data
      rw [hdata, hlast]
      simp [hthisne]
    have hgetF : (modifyIdx (fun e => treebuilder_set_element_tail e acc.toPyVal)
        st.heap l)[l]? = some (treebuilder_set_element_tail e acc.toPyVal) := by
      rw [modifyIdx_getElem?_self, he]
      rfl
    have hlenF : (modifyIdx (fun e => treebuilder_set_element_tail e acc.toPyVal)
        st.heap l).length = st.heap.length := modifyIdx_length _ _ _
    refine ⟨⟨?_, fun heq => absurd heq ht, fun _ => ?_⟩,
      ⟨?_, fun heq => absurd heq ht, fun _ => ?_⟩⟩
    · unfold treebuilder_handle_start
      rw [hfl]
      rcases hth : st.this with _ | t
      · rcases hrt : st.root with _ | r
        · simp only [hrt, Option.isSome_none, Bool.false_eq_true, if_false, ite_false]
          rw [treebuilder_start_finish_data]
        · simp only [hrt, Option.isSome_some, if_true, ite_true]
      · rw [treebuilder_start_finish_data]
    · unfold treebuilder_handle_start
      rw [hfl]
      rcases hth : st.this with _ | t
      · rcases hrt : st.root with _ | r
        · simp only [hrt, Option.isSome_none, Bool.false_eq_true, if_false, ite_false]
          rw [treebuilder_start_finish_heap]
          simp [modifyIdx_getElem?_self, modifyIdx_length, List.getElem?_append_left,
            hl, he, tail_add_subelement, treebuilder_set_element_tail,
            -List.getElem?_eq_getElem]
        · simp only [hrt, Option.isSome_some, if_true, ite_true]
          simp [modifyIdx_getElem?_self, he, treebuilder_set_element_tail,
            -List.getElem?_eq_getElem]
      · have htl : t ≠ l := by
          intro h
          exact ht (by rw [hth, hlast, h])
        rw [treebuilder_start_finish_heap]
        simp [modifyIdx_getElem?_ne _ _ _ _ htl, modifyIdx_getElem?_self,
          modifyIdx_length, List.getElem?_append_left, hl, he,
          treebuilder_set_element_tail, -List.getElem?_eq_getElem]
    · unfold treebuilder_handle_end
      rw [hfl]
      by_cases hstk : st.stack.length = 0
      · simp only [hstk, if_true, ite_true]
      · simp only [hstk, if_false, ite_false]
        rcases hth : st.this with _ | t <;> split <;> rfl
    · unfold treebuilder_handle_end
      rw [hfl]
      by_cases hstk : st.stack.length = 0
      · simp only [hstk, if_true, ite_true]
        rw [hgetF]
        rfl
      · simp only [hstk, if_false, ite_false]
        rcases hth : st.this with _ | t
        · split <;> (rw [hgetF]; rfl)
        · have htl : t ≠ l := by
            intro h
            exact ht (by rw [hth, hlast, h])
          split <;> (rw [modifyIdx_getElem?_ne _ _ _ _ htl, hgetF]; rfl)

/-- Witness for C1: a builder holding the two-fragment accumulator
`["hi", "!"]` over its open root element. -/
theorem xetree_C1_flush_rule_witness :
    (let st : TreeBuilderState :=
      { heap := [create_new_element (PyVal.str ['a']) Option.none]
        root := some 0, this := some 0, last := some 0
        data := some (DataAcc.many [['h', 'i'], ['!']])
        stack := [Option.none], events := []
        startEvents := false, endEvents := false }
    st.data = some (DataAcc.many [['h', 'i'], ['!']]) ∧ st.last = some 0 ∧
      0 < st.heap.length ∧
      (treebuilder_handle_end st PyVal.none 1 9 9).1.data = Option.none ∧
      (st.this = st.last →
        (((treebuilder_handle_end st PyVal.none 1 9 9).1.heap[0]?).map (·.text)) =
          some ⟨(DataAcc.many [['h', 'i'], ['!']]).toPyVal,
            (DataAcc.many [['h', 'i'], ['!']]).toPyVal.isList⟩)) := by
  intro st
  have h := xetree_C1_flush_rule st (DataAcc.many [['h', 'i'], ['!']]) 0
    PyVal.none Option.none 1 9 9 (by decide) (by decide) (by decide)
  exact ⟨rfl, rfl, by decide, h.2.1, h.2.2.1⟩

theorem pyAdjustIndex_bounds (L step i0 : Int) (hL : 0 ≤ L) (hstep : ¬step < 0) :
    0 ≤ pyAdjustIndex L step i0 ∧ pyAdjustIndex L step i0 ≤ L := by
  unfold pyAdjustIndex
  dsimp only
  split_ifs <;> omega

/-- For a normalized slice with step `1`, the slice length never exceeds
the sequence length. -/
theorem pySlice_step1_slicelen_le (L : Nat) (s? q? p? : Option Int)
    (start stop : Int) (slicelen : Nat)
    (h : pySliceGetIndicesEx L s? q? p? = Except.ok (start, stop, 1, slicelen)) :
    slicelen ≤ L := by
  unfold pySliceGetIndicesEx at h
  by_cases h0 : (p?.getD 1) = 0
  · rw [if_pos h0] at h
    cases h
  · rw [if_neg h0] at h
    simp only [Except.ok.injEq, Prod.mk.injEq] at h
    obtain ⟨hstart, hstop, hstep, hlen⟩ := h
    rw [hstep] at hstart hstop hlen
    have hone : ¬(1 : Int) < 0 := by omega
    have hs : 0 ≤ start ∧ start ≤ (L : Int) := by
      rcases s? with _ | s
      · simp only [hone, if_false, ite_false] at hstart
        omega
      · rw [← hstart]
        exact pyAdjustIndex_bounds (L : Int) 1 s (by omega) hone
    have hq : 0 ≤ stop ∧ stop ≤ (L : Int) := by
      rcases q? with _ | q
      · simp only [hone, if_false, ite_false] at hstop
        omega
      · rw [← hstop]
        exact pyAdjustIndex_bounds (L : Int) 1 q (by omega) hone
    rw [hstart, hstop] at hlen
    rw [if_neg hone] at hlen
    by_cases hlt : start < stop
    · rw [if_pos hlt, Int.tdiv_one] at hlen
      omega
    · rw [if_neg hlt] at hlen
      omega

/-- C3 (extended-slice assignment): once the slice is normalized, an
assignment through a slice whose step is not `1` demands a replacement
of exactly the slice length — otherwise the `ValueError` is raised
before any mutation, returning the child buffer exactly as it was
(atomic failure); with step `1` any replacement length is accepted and
the child count changes from `len` to `len - slicelen + newlen`. -/
theorem xetree_C3_slice_assignment {α : Type} (c : ChildBuf α)
    (start? stop? step? : Option Int) (seq : List α)
    (start stop step : Int) (slicelen : Nat)
    (hnorm : pySliceGetIndicesEx c.len start? stop? step? =
      Except.ok (start, stop, step, slicelen)) :
    (step ≠ 1 → seq.length ≠ slicelen →
      element_ass_subscr_slice c start? stop? step? seq =
        (c, some SliceErr.lengthMismatch)) ∧
    (step = 1 →
      (element_ass_subscr_slice c start? stop? step? seq).2 = Option.none ∧
      slicelen ≤ c.len ∧
      (element_ass_subscr_slice c start? stop? step? seq).1.len + slicelen =
        c.len + seq.length) := by
  constructor
  · intro hs hn
    unfold element_ass_subscr_slice
    rw [hnorm]
    dsimp only
    rw [if_pos ⟨hs, hn⟩]
  · intro hs
    subst hs
    have hle := pySlice_step1_slicelen_le c.len start? stop? step? start stop slicelen hnorm
    unfold element_ass_subscr_slice
    rw [hnorm]
    dsimp only
    rw [if_neg (by simp : ¬((1 : Int) ≠ 1 ∧ seq.length ≠ slicelen))]
    refine ⟨rfl, hle, ?_⟩
    show (c.len + seq.length - slicelen) + slicelen = c.len + seq.length
    omega

/-- Witness for C3 on a four-child buffer: the extended slice `[0:4:2]`
(slice length 2) with a length-1 replacement. -/
theorem xetree_C3_slice_assignment_witness :
    pySliceGetIndicesEx (ChildBuf.mk (fun _ => 0) 4 : ChildBuf Nat).len
        (some 0) (some 4) (some 2) = Except.ok (0, 4, 2, 2) ∧
    (((2 : Int) ≠ 1 → [9].length ≠ 2 →
      element_ass_subscr_slice (ChildBuf.mk (fun _ => 0) 4 : ChildBuf Nat)
          (some 0) (some 4) (some 2) [9] =
        (ChildBuf.mk (fun _ => 0) 4, some SliceErr.lengthMismatch)) ∧
    ((2 : Int) = 1 →
      (element_ass_subscr_slice (ChildBuf.mk (fun _ => 0) 4 : ChildBuf Nat)
          (some 0) (some 4) (some 2) [9]).2 = Option.none ∧
      2 ≤ (ChildBuf.mk (fun _ => 0) 4 : ChildBuf Nat).len ∧
      (element_ass_subscr_slice (ChildBuf.mk (fun _ => 0) 4 : ChildBuf Nat)
          (some 0) (some 4) (some 2) [9]).1.len + 2 =
        (ChildBuf.mk (fun _ => 0) 4 : ChildBuf Nat).len + [9].length)) :=
  ⟨rfl, xetree_C3_slice_assignment (ChildBuf.mk (fun _ => 0) 4)
    (some 0) (some 4) (some 2) [9] 0 4 2 2 rfl⟩

theorem list_join_pair (s1 s2 : Str) : list_join [s1, s2] = s1 ++ s2 := by
  simp [list_join_eq_join]

/-- The two accumulator shapes produced by `data s1; data s2` versus
`data (s1 ++ s2)` on an empty collector collapse to the same joined
string. -/
theorem collapse_acc_base_pair (s1 s2 : Str) :
    collapseTagged ⟨(DataAcc.many [s1, s2]).toPyVal,
        (DataAcc.many [s1, s2]).toPyVal.isList⟩ =
      collapseTagged ⟨(DataAcc.one (s1 ++ s2)).toPyVal,
        (DataAcc.one (s1 ++ s2)).toPyVal.isList⟩ := by
  simp [DataAcc.toPyVal, collapseTagged, PyVal.isList, list_join_pair]

/-- The two accumulator shapes produced on a non-empty collector collapse
to the same joined string. -/
theorem collapse_acc_many_pair (l : List Str) (s1 s2 : Str) :
    collapseTagged ⟨(DataAcc.many ((l ++ [s1]) ++ [s2])).toPyVal,
        (DataAcc.many ((l ++ [s1]) ++ [s2])).toPyVal.isList⟩ =
      collapseTagged ⟨(DataAcc.many (l ++ [s1 ++ s2])).toPyVal,
        (DataAcc.many (l ++ [s1 ++ s2])).toPyVal.isList⟩ := by
  simp [DataAcc.toPyVal, collapseTagged, PyVal.isList, list_join_eq_join,
    List.append_assoc]

theorem treebuilder_flush_data_some_text (u : TreeBuilderState) (acc : DataAcc)
    (l : Nat) (hd : u.data = some acc) (hl : u.last = some l)
    (ht : u.this = u.last) :
    treebuilder_flush_data u =
      ({ u with
          heap := modifyIdx (fun e => treebuilder_set_element_text e acc.toPyVal) u.heap l
          data := Option.none }, Option.none) := by
  unfold treebuilder_flush_data
  rw [hd, hl]
  dsimp only
  rw [if_pos (ht.trans hl)]

theorem treebuilder_flush_data_some_tail (u : TreeBuilderState) (acc : DataAcc)
    (l : Nat) (hd : u.data = some acc) (hl : u.last = some l)
    (ht : ¬u.this = u.last) :
    treebuilder_flush_data u =
      ({ u with
          heap := modifyIdx (fun e => treebuilder_set_element_tail e acc.toPyVal) u.heap l
          data := Option.none }, Option.none) := by
  unfold treebuilder_flush_data
  rw [hd, hl]
  dsimp only
  rw [if_neg (fun h => ht (h.trans hl.symm))]

theorem treebuilder_flush_data_success_none (u : TreeBuilderState)
    (h : (treebuilder_flush_data u).2 = Option.none) :
    (treebuilder_flush_data u).1.data = Option.none := by
  rcases hd : u.data with _ | acc
  · rw [treebuilder_flush_data_of_none u hd]
    exact hd
  · rcases hl : u.last with _ | l
    · exfalso
      unfold treebuilder_flush_data at h
      rw [hd, hl] at h
      dsimp only at h
      exact nomatch h
    · by_cases ht : u.this = u.last
      · rw [treebuilder_flush_data_some_text u acc l hd hl ht]
      · rw [treebuilder_flush_data_some_tail u acc l hd hl ht]

/-- `treebuilder_handle_end` on a state whose flush succeeds equals
`treebuilder_handle_end` on the flushed state (the flush of a flushed
state is a no-op). -/
theorem treebuilder_handle_end_flush_absorb (u : TreeBuilderState) (tag : PyVal)
    (line col pos : Int) (h2 : (treebuilder_flush_data u).2 = Option.none) :
    treebuilder_handle_end u tag line col pos =
      treebuilder_handle_end (treebuilder_flush_data u).1 tag line col pos := by
  have hd1 : (treebuilder_flush_data u).1.data = Option.none :=
    treebuilder_flush_data_success_none u h2
  conv_lhs => unfold treebuilder_handle_end
  conv_rhs => unfold treebuilder_handle_end
  rw [treebuilder_flush_data_of_none (treebuilder_flush_data u).1 hd1]
  rcases hfl : treebuilder_flush_data u with ⟨u1, err⟩
  rcases err with _ | e
  · rfl
  · rw [hfl] at h2
    simp at h2

/-- Collapse-equal heaps stay collapse-equal after storing the same text
value at the same address. -/
theorem map_collapse_modify_text_pair (h : List ElementData) (l : Nat) (a b : PyVal)
    (hcol : collapseTagged ⟨a, a.isList⟩ = collapseTagged ⟨b, b.isList⟩) :
    (modifyIdx (fun e => treebuilder_set_element_text e a) h l).map collapseElement =
      (modifyIdx (fun e => treebuilder_set_element_text e b) h l).map collapseElement := by
  rw [map_modifyIdx_comm collapseElement (fun e => treebuilder_set_element_text e a)
    (fun e => { e with text := collapseTagged ⟨a, a.isList⟩ }) (fun e => rfl)]
  rw [map_modifyIdx_comm collapseElement (fun e => treebuilder_set_element_text e b)
    (fun e => { e with text := collapseTagged ⟨b, b.isList⟩ }) (fun e => rfl)]
  simp only [hcol]

theorem map_collapse_modify_tail_pair (h : List ElementData) (l : Nat) (a b : PyVal)
    (hcol : collapseTagged ⟨a, a.isList⟩ = collapseTagged ⟨b, b.isList⟩) :
    (modifyIdx (fun e => treebuilder_set_element_tail e a) h l).map collapseElement =
      (modifyIdx (fun e => treebuilder_set_element_tail e b) h l).map collapseElement := by
  rw [map_modifyIdx_comm collapseElement (fun e => treebuilder_set_element_tail e a)
    (fun e => { e with tail := collapseTagged ⟨a, a.isList⟩ }) (fun e => rfl)]
  rw [map_modifyIdx_comm collapseElement (fun e => treebuilder_set_element_tail e b)
    (fun e => { e with tail := collapseTagged ⟨b, b.isList⟩ }) (fun e => rfl)]
  simp only [hcol]

/-- `treebuilder_handle_end` on two data-free states that differ only in
collapse-equal heaps produces collapse-equal states and equal results. -/
theorem treebuilder_handle_end_heap_congr (st : TreeBuilderState)
    (hA hB : List ElementData) (tag : PyVal) (line col pos : Int)
    (hh : hA.map collapseElement = hB.map collapseElement) :
    collapseTB (treebuilder_handle_end
        { st with heap := hA, data := Option.none } tag line col pos).1 =
      collapseTB (treebuilder_handle_end
        { st with heap := hB, data := Option.none } tag line col pos).1 ∧
    (treebuilder_handle_end { st with heap := hA, data := Option.none }
        tag line col pos).2 =
      (treebuilder_handle_end { st with heap := hB, data := Option.none }
        tag line col pos).2 := by
  unfold treebuilder_handle_end
  rw [treebuilder_flush_data_of_none _ rfl, treebuilder_flush_data_of_none _ rfl]
  by_cases hstk : st.stack.length = 0
  · simp only [hstk, if_true, ite_true]
    exact ⟨by simp [collapseTB, hh], by trivial⟩
  · simp only [hstk, if_false, ite_false]
    have hcomm : ∀ (hX : List ElementData) (i : Nat),
        (modifyIdx (fun e => { e with endPos := some (line, col, pos) }) hX i).map
            collapseElement =
          modifyIdx (fun e => { e with endPos := some (line, col, pos) })
            (hX.map collapseElement) i :=
      fun hX i => map_modifyIdx_comm collapseElement
        (fun e => { e with endPos := some (line, col, pos) })
        (fun e => { e with endPos := some (line, col, pos) }) (fun e => rfl) hX i
    rcases hth : st.this with _ | i <;>
      cases hev : st.endEvents <;>
        · simp only [hth, hev, Bool.false_eq_true, eq_self_iff_true, if_false,
            ite_false, if_true, ite_true]
          exact ⟨by simp [collapseTB, hh, hcomm], by trivial⟩

/-- C6 (data re-joining): delivering a run of character content as two
consecutive `data` fragments and then closing the element yields the
same result as delivering the concatenated run in a single `data` call:
the builder return values agree and the builder states agree once the
lazily join-pending text is collapsed (as the first read of
`text`/`tail` does). -/
theorem xetree_C6_data_rejoining (st : TreeBuilderState) (s1 s2 : Str)
    (tag : PyVal) (line col pos : Int)
    (hinv : st.last = Option.none → st.data = Option.none) :
    collapseTB (treebuilder_handle_end
        (treebuilder_handle_data (treebuilder_handle_data st s1) s2)
        tag line col pos).1 =
      collapseTB (treebuilder_handle_end
        (treebuilder_handle_data st (s1 ++ s2)) tag line col pos).1 ∧
    (treebuilder_handle_end
        (treebuilder_handle_data (treebuilder_handle_data st s1) s2)
        tag line col pos).2 =
      (treebuilder_handle_end
        (treebuilder_handle_data st (s1 ++ s2)) tag line col pos).2 := by
  rcases hlast : st.last with _ | l
  · -- no element yet: every data call is a silent no-op
    have hdat := hinv hlast
    have hno : ∀ d : Str, treebuilder_handle_data st d = st := by
      intro d
      unfold treebuilder_handle_data
      rw [hdat, if_pos hlast]
    rw [hno s1, hno s2, hno (s1 ++ s2)]
    exact ⟨rfl, rfl⟩
  · -- an element is pending; the accumulators differ but collapse equally
    have step2 : ∀ (accA accB : DataAcc),
        collapseTagged ⟨accA.toPyVal, accA.toPyVal.isList⟩ =
          collapseTagged ⟨accB.toPyVal, accB.toPyVal.isList⟩ →
        collapseTB (treebuilder_handle_end { st with data := some accA }
            tag line col pos).1 =
          collapseTB (treebuilder_handle_end { st with data := some accB }
            tag line col pos).1 ∧
        (treebuilder_handle_end { st with data := some accA } tag line col pos).2 =
          (treebuilder_handle_end { st with data := some accB } tag line col pos).2 := by
      intro accA accB hcol
      by_cases ht : st.this = st.last
      · have hflA := treebuilder_flush_data_some_text { st with data := some accA }
          accA l rfl hlast ht
        have hflB := treebuilder_flush_data_some_text { st with data := some accB }
          accB l rfl hlast ht
        rw [treebuilder_handle_end_flush_absorb { st with data := some accA }
            tag line col pos (by rw [hflA]),
          treebuilder_handle_end_flush_absorb { st with data := some accB }
            tag line col pos (by rw [hflB]),
          hflA, hflB]
        exact treebuilder_handle_end_heap_congr st _ _ tag line col pos
          (map_collapse_modify_text_pair st.heap l accA.toPyVal accB.toPyVal hcol)
      · have hflA := treebuilder_flush_data_some_tail { st with data := some accA }
          accA l rfl hlast ht
        have hflB := treebuilder_flush_data_some_tail { st with data := some accB }
          accB l rfl hlast ht
        rw [treebuilder_handle_end_flush_absorb { st with data := some accA }
            tag line col pos (by rw [hflA]),
          treebuilder_handle_end_flush_absorb { st with data := some accB }
            tag line col pos (by rw [hflB]),
          hflA, hflB]
        exact treebuilder_handle_end_heap_congr st _ _ tag line col pos
          (map_collapse_modify_tail_pair st.heap l accA.toPyVal accB.toPyVal hcol)
    rcases hdat : st.data with _ | acc
    · -- empty collector: [s1, s2] versus s1 ++ s2
      have hA : treebuilder_handle_data (treebuilder_handle_data st s1) s2 =
          { st with data := some (DataAcc.many [s1, s2]) } := by
        have e1 : treebuilder_handle_data st s1 =
            { st with data := some (DataAcc.one s1) } := by
          unfold treebuilder_handle_data
          rw [hdat, if_neg (by rw [hlast]; exact fun h => nomatch h)]
        rw [e1]
        unfold treebuilder_handle_data
        rfl
      have hB : treebuilder_handle_data st (s1 ++ s2) =
          { st with data := some (DataAcc.one (s1 ++ s2)) } := by
        unfold treebuilder_handle_data
        rw [hdat, if_neg (by rw [hlast]; exact fun h => nomatch h)]
      rw [hA, hB]
      exact step2 (DataAcc.many [s1, s2]) (DataAcc.one (s1 ++ s2))
        (collapse_acc_base_pair s1 s2)
    · -- non-empty collector
      rcases acc with s | L
      · have hA : treebuilder_handle_data (treebuilder_handle_data st s1) s2 =
            { st with data := some (DataAcc.many [s, s1, s2]) } := by
          have e1 : treebuilder_handle_data st s1 =
              { st with data := some (DataAcc.many [s, s1]) } := by
            unfold treebuilder_handle_data
            rw [hdat]
          rw [e1]
          unfold treebuilder_handle_data
          rfl
        have hB : treebuilder_handle_data st (s1 ++ s2) =
            { st with data := some (DataAcc.many [s, s1 ++ s2]) } := by
          unfold treebuilder_handle_data
          rw [hdat]
        rw [hA, hB]
        exact step2 (DataAcc.many [s, s1, s2]) (DataAcc.many [s, s1 ++ s2])
          (collapse_acc_many_pair [s] s1 s2)
      · have hA : treebuilder_handle_data (treebuilder_handle_data st s1) s2 =
            { st with data := some (DataAcc.many ((L ++ [s1]) ++ [s2])) } := by
          have e1 : treebuilder_handle_data st s1 =
              { st with data := some (DataAcc.many (L ++ [s1])) } := by
            unfold treebuilder_handle_data
            rw [hdat]
          rw [e1]
          unfold treebuilder_handle_data
          rfl
        have hB : treebuilder_handle_data st (s1 ++ s2) =
            { st with data := some (DataAcc.many (L ++ [s1 ++ s2])) } := by
          unfold treebuilder_handle_data
          rw [hdat]
        rw [hA, hB]
        exact step2 (DataAcc.many ((L ++ [s1]) ++ [s2]))
          (DataAcc.many (L ++ [s1 ++ s2])) (collapse_acc_many_pair L s1 s2)

/-- Witness for C6: the fragments `"he"` and `"llo"` against `"hello"`
over an open root element. -/
theorem xetree_C6_data_rejoining_witness :
    (let st : TreeBuilderState :=
      { heap := [create_new_element (PyVal.str ['a']) Option.none]
        root := some 0, this := some 0, last := some 0
        data := Option.none, stack := [Option.none], events := []
        startEvents := false, endEvents := false }
    (st.last = Option.none → st.data = Option.none) ∧
      (collapseTB (treebuilder_handle_end
          (treebuilder_handle_data (treebuilder_handle_data st ['h', 'e'])
            ['l', 'l', 'o']) PyVal.none 1 7 7).1 =
        collapseTB (treebuilder_handle_end
          (treebuilder_handle_data st ['h', 'e', 'l', 'l', 'o'])
          PyVal.none 1 7 7).1 ∧
      (treebuilder_handle_end
          (treebuilder_handle_data (treebuilder_handle_data st ['h', 'e'])
            ['l', 'l', 'o']) PyVal.none 1 7 7).2 =
        (treebuilder_handle_end
          (treebuilder_handle_data st ['h', 'e', 'l', 'l', 'o'])
          PyVal.none 1 7 7).2)) := by
  intro st
  exact ⟨by decide,
    xetree_C6_data_rejoining st ['h', 'e'] ['l', 'l', 'o'] PyVal.none 1 7 7 (by decide)⟩

/-- C4 (undefined-entity reporting): when the default handler sees an
entity reference `&name;` whose name is absent from the parser's entity
map, and no error is pending, a fatal error is recorded in the pending
error slot, with code `XML_ERROR_UNDEFINED_ENTITY`, the tokenizer's
error position, and a message containing the literal entity name;
when an error is already pending, the handler changes nothing, so only
the first such error of a parse is ever reported. -/
theorem xetree_C4_undefined_entity_first_wins (st : XMLParserState) (name : Str)
    (hlen : name.length ≤ 98)
    (hmiss : dictGet st.entity name = Option.none) :
    (st.pendingError = Option.none →
      ∃ err : ExpatError,
        (expat_default_handler st ('&' :: (name ++ [';']))).pendingError = some err ∧
        err.code = XML_ERROR_UNDEFINED_ENTITY ∧
        err.position = (st.errLine, st.errCol) ∧
        ∃ pre post : Str, err.message = pre ++ name ++ post) ∧
    (st.pendingError.isSome →
      expat_default_handler st ('&' :: (name ++ [';'])) = st) := by
  have hcond : ¬(('&' :: (name ++ [';'])).length < 2 ∨
      ('&' :: (name ++ [';'])).head? ≠ some '&') := by
    simp
  have hkey : (('&' :: (name ++ [';'])).drop 1).take
      (('&' :: (name ++ [';'])).length - 2) = name := by
    simp
  have hstep : expat_default_handler st ('&' :: (name ++ [';'])) =
      if st.pendingError.isSome then st
      else
        { st with
            pendingError := some (expat_set_error XML_ERROR_UNDEFINED_ENTITY
              st.errLine st.errCol
              ((String.toList ("undefined entity ")) ++
                ('&' :: (name ++ [';'])).take 100)) } := by
    unfold expat_default_handler
    rw [if_neg hcond, hkey]
    simp only [hmiss]
  have htake : ('&' :: (name ++ [';'])).take 100 = '&' :: (name ++ [';']) := by
    apply List.take_of_length_le
    simp
    omega
  constructor
  · intro hpend
    rw [hstep, if_neg (by simp [hpend])]
    refine ⟨_, rfl, rfl, rfl,
      (String.toList ("undefined entity ")) ++ ['&'],
      [';'] ++ (String.toList (": line ")) ++ (toString st.errLine).toList
        ++ (String.toList (", column ")) ++ (toString st.errCol).toList, ?_⟩
    simp [expat_set_error, htake]
  · intro hpend
    rw [hstep, if_pos hpend]

/-- Witness for C4: the unresolved reference `&bogus;` against an empty
entity map with no error pending. -/
theorem xetree_C4_undefined_entity_first_wins_witness :
    (['b', 'o', 'g', 'u', 's'] : Str).length ≤ 98 ∧
    dictGet (⟨[], Option.none, treebuilder_new, 3, 7⟩ : XMLParserState).entity
      ['b', 'o', 'g', 'u', 's'] = Option.none ∧
    (((⟨[], Option.none, treebuilder_new, 3, 7⟩ : XMLParserState).pendingError =
        Option.none →
      ∃ err : ExpatError,
        (expat_default_handler (⟨[], Option.none, treebuilder_new, 3, 7⟩ : XMLParserState)
            ('&' :: ((['b', 'o', 'g', 'u', 's'] : Str) ++ [';']))).pendingError = some err ∧
        err.code = XML_ERROR_UNDEFINED_ENTITY ∧
        err.position = ((⟨[], Option.none, treebuilder_new, 3, 7⟩ : XMLParserState).errLine,
          (⟨[], Option.none, treebuilder_new, 3, 7⟩ : XMLParserState).errCol) ∧
        ∃ pre post : Str, err.message = pre ++ ['b', 'o', 'g', 'u', 's'] ++ post) ∧
    ((⟨[], Option.none, treebuilder_new, 3, 7⟩ : XMLParserState).pendingError.isSome →
      expat_default_handler (⟨[], Option.none, treebuilder_new, 3, 7⟩ : XMLParserState)
          ('&' :: ((['b', 'o', 'g', 'u', 's'] : Str) ++ [';'])) =
        (⟨[], Option.none, treebuilder_new, 3, 7⟩ : XMLParserState))) :=
  ⟨by decide, by decide,
    xetree_C4_undefined_entity_first_wins
      (⟨[], Option.none, treebuilder_new, 3, 7⟩ : XMLParserState)
      ['b', 'o', 'g', 'u', 's'] (by decide) (by decide)⟩

/-- C5 (multiple roots): a start event arriving while no element is open
(`self->this` is the `Py_None` sentinel) but a root is already recorded
fails with the fatal "multiple elements on top level" error, and mutates
nothing beyond the flush of pending text: no element gains a child, the
freshly built node never enters the heap, and root/stack/current/last
are untouched.  A first top-level start (no root yet) instead succeeds
and records the new element as root. -/
theorem xetree_C5_multiple_roots (st : TreeBuilderState) (tag : PyVal)
    (attrib : Option (List (Str × Str))) (line col pos : Int) (r : Nat)
    (hthis : st.this = Option.none) (hroot : st.root = some r)
    (hinv : st.last = Option.none → st.data = Option.none) :
    (treebuilder_handle_start st tag attrib line col pos =
      ((treebuilder_flush_data st).1, Except.error TBErr.multipleRoots)) ∧
    ((treebuilder_flush_data st).1.heap.map elemChildren = st.heap.map elemChildren ∧
      (treebuilder_flush_data st).1.heap.length = st.heap.length ∧
      (treebuilder_flush_data st).1.root = st.root ∧
      (treebuilder_flush_data st).1.stack = st.stack ∧
      (treebuilder_flush_data st).1.this = st.this ∧
      (treebuilder_flush_data st).1.last = st.last) ∧
    (∀ st' : TreeBuilderState, st'.this = Option.none → st'.root = Option.none →
      (st'.last = Option.none → st'.data = Option.none) →
      (treebuilder_handle_start st' tag attrib line col pos).2 =
        Except.ok st'.heap.length ∧
      (treebuilder_handle_start st' tag attrib line col pos).1.root =
        some st'.heap.length) := by
  have hflush2 : (treebuilder_flush_data st).2 = Option.none := by
    rcases hd : st.data with _ | acc
    · rw [treebuilder_flush_data_of_none st hd]
    · rcases hl : st.last with _ | l
      · exact absurd (hinv hl) (by simp [hd])
      · exact treebuilder_flush_data_ok st l hl
    ;
  obtain ⟨hfr, hft, hfl, hfs, -, -, -, hflen, hfch⟩ := treebuilder_flush_data_preserves st
  refine ⟨?_, ⟨hfch, hflen, hfr, hfs, hft, hfl⟩, ?_⟩
  · unfold treebuilder_handle_start
    rcases hfl2 : treebuilder_flush_data st with ⟨st1, err⟩
    rcases err with _ | e
    · have hthis1 : st1.this = Option.none := by
        have := hft
        rw [hfl2] at this
        simpa [hthis] using this
      have hroot1 : st1.root.isSome = true := by
        have := hfr
        rw [hfl2] at this
        simp at this
        rw [this, hroot]
        rfl
      simp [hthis1, hroot1]
    · rw [hfl2] at hflush2
      simp at hflush2
  · intro st' hthis' hroot' hinv'
    have hflush2' : (treebuilder_flush_data st').2 = Option.none := by
      rcases hd : st'.data with _ | acc
      · rw [treebuilder_flush_data_of_none st' hd]
      · rcases hl : st'.last with _ | l
        · exact absurd (hinv' hl) (by simp [hd])
        · exact treebuilder_flush_data_ok st' l hl
      ;
    obtain ⟨hfr', hft', -, -, -, -, -, hflen', -⟩ := treebuilder_flush_data_preserves st'
    unfold treebuilder_handle_start
    rcases hfl2' : treebuilder_flush_data st' with ⟨st1, err⟩
    rcases err with _ | e
    · have hthis1 : st1.this = Option.none := by
        have := hft'
        rw [hfl2'] at this
        simpa [hthis'] using this
      have hroot1 : st1.root = Option.none := by
        have := hfr'
        rw [hfl2'] at this
        simpa [hroot'] using this
      have hlen1 : st1.heap.length = st'.heap.length := by
        have := hflen'
        rw [hfl2'] at this
        simpa using this
      simp [hthis1, hroot1, treebuilder_start_finish, hlen1]
      split <;> simp
    · rw [hfl2'] at hflush2'
      simp at hflush2'

/-- Witness for C5: a builder that has already closed its root, receiving
a second top-level start. -/
theorem xetree_C5_multiple_roots_witness :
    (let st : TreeBuilderState :=
      { heap := [create_new_element (PyVal.str ['a']) Option.none]
        root := some 0, this := Option.none, last := some 0
        data := Option.none, stack := [], events := []
        startEvents := false, endEvents := false }
    st.this = Option.none ∧ st.root = some 0 ∧
      treebuilder_handle_start st (PyVal.str ['z']) Option.none 1 0 0 =
        ((treebuilder_flush_data st).1, Except.error TBErr.multipleRoots)) := by
  intro st
  exact ⟨rfl, rfl,
    (xetree_C5_multiple_roots st (PyVal.str ['z']) Option.none 1 0 0 0
      (by decide) (by decide) (fun h => by decide)).1⟩

/-- C10 (end ignores its tag): `treebuilder_handle_end` never consults
its tag argument — any two tags, including the `Py_None` value the
parser adapter in fact always passes, produce identical results — and,
on a non-empty stack, it pops the stack into the open-element slot and
returns the element that was open. -/
theorem xetree_C10_end_ignores_tag (st : TreeBuilderState) (t t' : PyVal)
    (line col pos : Int) :
    (treebuilder_handle_end st t line col pos =
      treebuilder_handle_end st t' line col pos) ∧
    (expat_end_handler st line col pos =
      treebuilder_handle_end st t line col pos) ∧
    (st.data = Option.none → st.stack ≠ [] →
      (treebuilder_handle_end st t line col pos).2 = Except.ok st.this ∧
      (treebuilder_handle_end st t line col pos).1.this =
        st.stack.getLast?.getD Option.none ∧
      (treebuilder_handle_end st t line col pos).1.last = st.this ∧
      (treebuilder_handle_end st t line col pos).1.stack = st.stack.dropLast) := by
  refine ⟨rfl, rfl, ?_⟩
  intro hdata hstack
  have hpos : 0 < st.stack.length := List.length_pos.mpr hstack
  have hlen : ¬st.stack.length = 0 := by omega
  unfold treebuilder_handle_end
  rw [treebuilder_flush_data_of_none st hdata]
  simp only [hlen, if_false, ite_false]
  rcases st.this with _ | i <;> split <;> simp

/-- Witness for C10: a builder with one open element and `Py_None` on the
stack below it. -/
theorem xetree_C10_end_ignores_tag_witness :
    (let st : TreeBuilderState :=
      { heap := [create_new_element (PyVal.str ['a']) Option.none]
        root := some 0, this := some 0, last := some 0
        data := Option.none, stack := [Option.none], events := []
        startEvents := false, endEvents := false }
    st.data = Option.none ∧ st.stack ≠ [] ∧
      (treebuilder_handle_end st (PyVal.str ['q']) 2 0 9).2 = Except.ok st.this ∧
      (treebuilder_handle_end st (PyVal.str ['q']) 2 0 9).1.this =
        st.stack.getLast?.getD Option.none ∧
      (treebuilder_handle_end st (PyVal.str ['q']) 2 0 9).1.last = st.this ∧
      (treebuilder_handle_end st (PyVal.str ['q']) 2 0 9).1.stack = st.stack.dropLast) := by
  intro st
  refine ⟨rfl, by decide, ?_⟩
  exact (xetree_C10_end_ignores_tag st (PyVal.str ['q']) PyVal.none 2 0 9).2.2
    rfl (by decide)

/-- Witness for C9 on a freshly constructed attribute-less element. -/
theorem xetree_C9_attrib_read_materializes_witness :
    (create_new_element (PyVal.str ['a']) Option.none).extra = Option.none ∧
    (element_getattro_attrib (create_new_element (PyVal.str ['a']) Option.none) =
        ([], { create_new_element (PyVal.str ['a']) Option.none with
                extra := some ⟨some [], []⟩ }) ∧
      (element_getattro_attrib (create_new_element (PyVal.str ['a']) Option.none)).2.extra =
        some ⟨some [], []⟩ ∧
      (element_get (create_new_element (PyVal.str ['a']) Option.none) ['k'] PyVal.none).2 =
        create_new_element (PyVal.str ['a']) Option.none ∧
      (element_items (create_new_element (PyVal.str ['a']) Option.none)).2 =
        create_new_element (PyVal.str ['a']) Option.none ∧
      (element_keys (create_new_element (PyVal.str ['a']) Option.none)).2 =
        create_new_element (PyVal.str ['a']) Option.none) :=
  ⟨by decide,
    xetree_C9_attrib_read_materializes (create_new_element (PyVal.str ['a']) Option.none)
      ['k'] PyVal.none (by decide)⟩

end XETree
